import Mathlib

/-!
Shallow embedding of `graphql_client_codegen/src/resolution.rs`: the
semantic-resolution phase that turns a parsed query document into an
ID-based resolved store, plus the view layer and the used-type collector.

Rust `Result<T, anyhow::Error>` is modelled as `Except Failure T`, where
`Failure.err` is an error returned through `?` and `Failure.panicked`
models a Rust panic (`expect`, `unwrap`, `todo!`, `unreachable!`).
The schema accessor (`crate::schema`) is not part of the resolution
module; it is modelled from the spec's interface description (section 6).
-/

namespace GraphQLResolution

/-- Schema type identifier (`crate::schema::TypeId`): a tagged reference to
exactly one schema type variant. -/
inductive TypeId where
  | object (oid : Nat)
  | interface (iid : Nat)
  | union (uid : Nat)
  | enum (eid : Nat)
  | scalar (sid : Nat)
  | inputObject (ioid : Nat)
deriving DecidableEq, Repr

/-- Modelled from the spec: a field declared on one object (or interface)
type, addressed by a stable `StoredFieldId`; a field handle exposes
`declared_type() -> TypeId` and a stable `field_id`. -/
structure StoredField where
  name : String
  type_id : TypeId
deriving DecidableEq, Repr

/-- Modelled from the spec: an object (or interface) type of the schema,
with a name and the fields declared on it (as indices into the schema's
field arena). -/
structure StoredObject where
  name : String
  fields : List Nat
deriving DecidableEq, Repr

/-- Modelled from the spec: the schema accessor. It is queried by name
(`find_type`) and by ID (`object`, `interface`, `field`), and exposes the
root operation types (`query_type`, `mutation_type`). `query_type` and
`mutation_type` are object ids, matching how the resolution code uses the
returned `ObjectRef` directly. -/
structure Schema where
  fields : List StoredField
  objects : List StoredObject
  interfaces : List StoredObject
  types_by_name : List (String × TypeId)
  query_type : Nat
  mutation_type : Nat
deriving DecidableEq, Repr

/-- Modelled from the spec: `find_type(name) -> Option<TypeId>`. -/
def Schema.find_type (schema : Schema) (name : String) : Option TypeId :=
  (schema.types_by_name.find? (fun p => p.1 == name)).map (fun p => p.2)

/-- Modelled from the spec: `field_by_name(name) -> Option<FieldHandle>` on an
object type; the handle is returned here as the stable field id paired with
the stored field data. -/
def get_field_by_name (schema : Schema) (object : StoredObject) (name : String) :
    Option (Nat × StoredField) :=
  match object.fields.find? (fun fid =>
      match schema.fields[fid]? with
      | some f => f.name == name
      | none => false) with
  | some fid =>
    match schema.fields[fid]? with
    | some f => some (fid, f)
    | none => none
  | none => none

/-- A literal value from the query AST (`graphql_parser::query::Value`),
external input to resolution; only carried around, never inspected. -/
inductive QValue where
  | intVal (n : Int)
  | stringVal (s : String)
  | boolVal (b : Bool)
  | nullVal
deriving DecidableEq, Repr

/-- A declared input type in variable-declaration syntax. -/
inductive InputType where
  | named (n : String)
  | listOf (t : InputType)
  | nonNull (t : InputType)
deriving DecidableEq, Repr

/-- One item of a parsed selection set
(`graphql_parser::query::Selection`): a field (with its own nested
selection set), an inline fragment (optional type condition), or a
fragment spread (by name). -/
inductive QSelection where
  | field (name : String) (selection_set : List QSelection)
  | inlineFragment (type_condition : Option String) (selection_set : List QSelection)
  | fragmentSpread (fragment_name : String)

/-- A declared variable of an operation: name, declared input type,
optional default literal. -/
structure VariableDefinition where
  name : String
  var_type : InputType
  default : Option QValue
deriving DecidableEq, Repr

/-- The common body of a parsed query/mutation/subscription definition:
optional name, declared variables, selection set. -/
structure QueryBody where
  name : Option String
  variable_definitions : List VariableDefinition
  selection_set : List QSelection

/-- A parsed operation definition
(`graphql_parser::query::OperationDefinition`). -/
inductive OperationDefinition where
  | query (q : QueryBody)
  | mutation (m : QueryBody)
  | subscription (s : QueryBody)
  | selectionSet (s : List QSelection)

/-- A parsed fragment definition: name, type condition
(`TypeCondition::On(name)`), selection set. -/
structure FragmentDefinition where
  name : String
  type_condition : String
  selection_set : List QSelection

/-- A document definition: fragment or operation. -/
inductive Definition where
  | fragment (f : FragmentDefinition)
  | operation (o : OperationDefinition)

/-- A parsed query document. -/
structure Document where
  definitions : List Definition

/-- Operation kind (`crate::operations::OperationType`). -/
inductive OperationType where
  | query
  | mutation
  | subscription
deriving DecidableEq, Repr

/-- Modelled from the spec: `crate::schema::StoredInputFieldType`, the
schema-side representation of a declared input type; only carried by
`ResolvedVariable`. -/
inductive StoredInputFieldType where
  | ofInput (t : InputType)
deriving DecidableEq, Repr

/-- A resolved selection tree node (`IdSelection` in the source): field by
stored id with children, fragment spread by name, or inline fragment by
type id with children. -/
inductive IdSelection where
  | field (fid : Nat) (children : List IdSelection)
  | fragmentSpread (name : String)
  | inlineFragment (tid : TypeId) (children : List IdSelection)

/-- A resolved fragment entry (`ResolvedFragment`); `on_type` models the
source field named `on` (a Lean keyword). -/
structure ResolvedFragment where
  name : String
  on_type : TypeId
  selection : List IdSelection

/-- A resolved variable (`ResolvedVariable`). -/
structure ResolvedVariable where
  name : String
  default : Option QValue
  var_type : StoredInputFieldType
deriving DecidableEq, Repr

/-- A resolved operation entry (`ResolvedOperation`); `vars` models the
source field named `variables` (a Lean keyword). -/
structure ResolvedOperation where
  name : String
  operation_type : OperationType
  vars : List ResolvedVariable
  selection : List IdSelection

/-- The resolved-query store (`ResolvedQuery`): operations and fragments in
document order. -/
structure ResolvedQuery where
  operations : List ResolvedOperation
  fragments : List ResolvedFragment

/-- A resolution-time error value carried by `anyhow::Error` in the source;
each variant captures one `anyhow!` / `ensure!` site with the data its
message interpolates. -/
inductive ResolveError where
  | noFieldNamed (field_name : String) (object_name : String)
  | todoErrorMessage
  | selectionOnNonSelectable (other : TypeId)
deriving DecidableEq, Repr

/-- The outcome of a failing resolution step: an error returned through
`?`, or a panic. -/
inductive Failure where
  | err (e : ResolveError)
  | panicked (msg : String)
deriving DecidableEq, Repr

mutual

/-- Embedding of `resolve_object_selection`: map each selection item to a
resolved node, in order, failing fast on the first error (the source's
`map` + `collect::<Result<_, _>>`). -/
def resolve_object_selection (schema : Schema) (object : StoredObject) :
    List QSelection → Except Failure (List IdSelection)
  | [] => Except.ok []
  | item :: rest =>
    match resolve_selection_item schema object item with
    | Except.error e => Except.error e
    | Except.ok node =>
      match resolve_object_selection schema object rest with
      | Except.error e => Except.error e
      | Except.ok nodes => Except.ok (node :: nodes)

/-- Embedding of the per-item closure inside `resolve_object_selection`:
a field is looked up on the object (error `No field named .. on ..` when
absent) and its sub-selection resolved against the field's declared type;
an inline fragment goes through `resolve_inline_fragment`; a fragment
spread becomes a `FragmentSpread` node carrying the spread name,
unchecked. The `resolve_selection` dispatch (object: resolve against the
object; interface: fetch it, then the `todo!("interface thing")` panic;
any other kind: `ensure!` the selection set is empty, else the `Selection
set on non-object, non-interface type` error) and the
`resolve_inline_fragment` body are inlined here so that the recursion is
structural; the definitional equations `resolve_selection_item_field` and
`resolve_selection_item_inline` below restate this function in the
source's call structure. -/
def resolve_selection_item (schema : Schema) (object : StoredObject) :
    QSelection → Except Failure IdSelection
  | QSelection.field name sub =>
    match get_field_by_name schema object name with
    | none => Except.error (Failure.err (ResolveError.noFieldNamed name object.name))
    | some (fid, f) =>
      match
        (match f.type_id with
         | TypeId.object oid =>
           match schema.objects[oid]? with
           | none => Except.error (Failure.panicked "schema.object: no such object")
           | some object2 => resolve_object_selection schema object2 sub
         | TypeId.interface iid =>
           match schema.interfaces[iid]? with
           | none => Except.error (Failure.panicked "schema.interface: no such interface")
           | some _ => Except.error (Failure.panicked "not yet implemented: interface thing")
         | other =>
           if sub.isEmpty then Except.ok []
           else Except.error (Failure.err (ResolveError.selectionOnNonSelectable other))) with
      | Except.error e => Except.error e
      | Except.ok children => Except.ok (IdSelection.field fid children)
  | QSelection.inlineFragment tc sub =>
    match tc with
    | none => Except.error (Failure.panicked "missing type condition")
    | some cond_name =>
      match schema.find_type cond_name with
      | none => Except.error (Failure.err ResolveError.todoErrorMessage)
      | some type_id =>
        match
          (match type_id with
           | TypeId.object oid =>
             match schema.objects[oid]? with
             | none => Except.error (Failure.panicked "schema.object: no such object")
             | some object2 => resolve_object_selection schema object2 sub
           | TypeId.interface iid =>
             match schema.interfaces[iid]? with
             | none => Except.error (Failure.panicked "schema.interface: no such interface")
             | some _ => Except.error (Failure.panicked "not yet implemented: interface thing")
           | other =>
             if sub.isEmpty then Except.ok []
             else Except.error (Failure.err (ResolveError.selectionOnNonSelectable other))) with
        | Except.error e => Except.error e
        | Except.ok children => Except.ok (IdSelection.inlineFragment type_id children)
  | QSelection.fragmentSpread n => Except.ok (IdSelection.fragmentSpread n)

end

/-- Embedding of `resolve_selection`: dispatch on the kind of the target
type. Object: resolve against the object; interface: `todo!("interface
thing")` after fetching the interface, i.e. a panic; any other kind:
`ensure!` the selection set is empty, else the `Selection set on
non-object, non-interface type` error. -/
def resolve_selection (schema : Schema) (on_type : TypeId)
    (selection_set : List QSelection) : Except Failure (List IdSelection) :=
  match on_type with
  | TypeId.object oid =>
    match schema.objects[oid]? with
    | none => Except.error (Failure.panicked "schema.object: no such object")
    | some object => resolve_object_selection schema object selection_set
  | TypeId.interface iid =>
    match schema.interfaces[iid]? with
    | none => Except.error (Failure.panicked "schema.interface: no such interface")
    | some _ => Except.error (Failure.panicked "not yet implemented: interface thing")
  | other =>
    if selection_set.isEmpty then Except.ok []
    else Except.error (Failure.err (ResolveError.selectionOnNonSelectable other))

/-- Embedding of `resolve_inline_fragment`: a missing type condition is an
`expect` panic; an unknown type-condition name is the `anyhow!("TODO:
error message")` error; otherwise the selection set is resolved against
the condition type. -/
def resolve_inline_fragment (schema : Schema) (type_condition : Option String)
    (selection_set : List QSelection) : Except Failure IdSelection :=
  match type_condition with
  | none => Except.error (Failure.panicked "missing type condition")
  | some cond_name =>
    match schema.find_type cond_name with
    | none => Except.error (Failure.err ResolveError.todoErrorMessage)
    | some type_id =>
      match resolve_selection schema type_id selection_set with
      | Except.error e => Except.error e
      | Except.ok children => Except.ok (IdSelection.inlineFragment type_id children)

/-- Embedding of `resolve_fragment`: the type-condition name is resolved
with `find_type` and a miss is an `expect` panic (`TODO: proper error
message`); the resolved fragment is appended to the store's fragment
sequence, with no uniqueness check on the name. -/
def resolve_fragment (query : ResolvedQuery) (schema : Schema)
    (fragment : FragmentDefinition) : Except Failure ResolvedQuery :=
  match schema.find_type fragment.type_condition with
  | none => Except.error (Failure.panicked "TODO: proper error message")
  | some on_type =>
    match resolve_selection schema on_type fragment.selection_set with
    | Except.error e => Except.error e
    | Except.ok sel =>
      Except.ok { query with
        fragments := query.fragments ++
          [{ name := fragment.name, on_type := on_type, selection := sel }] }

/-- Embedding of `resolve_operation`: mutation and query resolve their
selection set against the corresponding root object; a missing operation
name is an `expect` panic; the stored operation's `variables` field is
`Vec::new()`; subscriptions hit `todo!` and bare selection-set operations
hit `unreachable!`. -/
def resolve_operation (query : ResolvedQuery) (schema : Schema)
    (operation : OperationDefinition) : Except Failure ResolvedQuery :=
  match operation with
  | OperationDefinition.mutation m =>
    match schema.objects[schema.mutation_type]? with
    | none => Except.error (Failure.panicked "schema.mutation_type: no such object")
    | some root =>
      match m.name with
      | none => Except.error (Failure.panicked "mutation without name")
      | some name =>
        match resolve_object_selection schema root m.selection_set with
        | Except.error e => Except.error e
        | Except.ok sel =>
          Except.ok { query with
            operations := query.operations ++
              [{ name := name, operation_type := OperationType.mutation,
                 vars := [], selection := sel }] }
  | OperationDefinition.query q =>
    match schema.objects[schema.query_type]? with
    | none => Except.error (Failure.panicked "schema.query_type: no such object")
    | some root =>
      match q.name with
      | none => Except.error (Failure.panicked "query without name")
      | some name =>
        match resolve_object_selection schema root q.selection_set with
        | Except.error e => Except.error e
        | Except.ok sel =>
          Except.ok { query with
            operations := query.operations ++
              [{ name := name, operation_type := OperationType.query,
                 vars := [], selection := sel }] }
  | OperationDefinition.subscription _ =>
    Except.error (Failure.panicked "not yet implemented: resolve subscription")
  | OperationDefinition.selectionSet _ =>
    Except.error (Failure.panicked "unnamed queries are not supported")

/-- Embedding of the loop body of `resolve`: iterate the document's
definitions in order, threading the store, failing fast. -/
def resolve_definitions (schema : Schema) (defs : List Definition)
    (acc : ResolvedQuery) : Except Failure ResolvedQuery :=
  match defs with
  | [] => Except.ok acc
  | d :: rest =>
    match (match d with
           | Definition.fragment f => resolve_fragment acc schema f
           | Definition.operation o => resolve_operation acc schema o) with
    | Except.error e => Except.error e
    | Except.ok acc2 => resolve_definitions schema rest acc2

/-- Embedding of `resolve`, the document-level entry point: starts from the
`Default::default()` empty store. -/
def resolve (schema : Schema) (query : Document) : Except Failure ResolvedQuery :=
  resolve_definitions schema query.definitions { operations := [], fragments := [] }

/-- A re-hydrated selection node (`Selection<'a>` in the source): a field
view carries the field id and the field's declared type (the parts of
`FieldRef` the collector reads); a spread view carries the `Fragment`
handle's resolved index into the store's fragment sequence. -/
inductive SelectionView where
  | field (fid : Nat) (field_type : TypeId) (children : List SelectionView)
  | fragmentSpread (fragment_id : Nat)
  | inlineFragment (tid : TypeId) (children : List SelectionView)

mutual

/-- Embedding of `IdSelection::upgrade`: fields and inline fragments
re-hydrate their children eagerly; a spread scans the fragment sequence
for the first fragment with the spread's name (`Iterator::position`) and
`unwrap`s — `none` models that panic, as well as the panic of
`schema.field(*id)` on an id outside the schema. -/
def IdSelection.upgrade (schema : Schema) (query : ResolvedQuery) :
    IdSelection → Option SelectionView
  | IdSelection.field fid children =>
    match schema.fields[fid]? with
    | none => none
    | some f =>
      match upgrade_list schema query children with
      | none => none
      | some cs => some (SelectionView.field fid f.type_id cs)
  | IdSelection.fragmentSpread name =>
    match query.fragments.findIdx? (fun frag => frag.name == name) with
    | none => none
    | some i => some (SelectionView.fragmentSpread i)
  | IdSelection.inlineFragment tid children =>
    match upgrade_list schema query children with
    | none => none
    | some cs => some (SelectionView.inlineFragment tid cs)

/-- Upgrading of a stored selection list, as done by `Operation::selection`,
`Fragment::selection` and the child maps inside `IdSelection::upgrade`. -/
def upgrade_list (schema : Schema) (query : ResolvedQuery) :
    List IdSelection → Option (List SelectionView)
  | [] => some []
  | s :: rest =>
    match IdSelection.upgrade schema query s with
    | none => none
    | some v =>
      match upgrade_list schema query rest with
      | none => none
      | some vs => some (v :: vs)

end

/-- Collection over a list of sibling views with a given per-view
collector, accumulating the union (the source threads one `HashSet`
through all of them via `for_each`). -/
def collect_list (collector : SelectionView → Option (Finset TypeId)) :
    List SelectionView → Option (Finset TypeId)
  | [] => some ∅
  | v :: rest =>
    match collector v with
    | none => none
    | some s1 =>
      match collect_list collector rest with
      | none => none
      | some s2 => some (s1 ∪ s2)

/-- Embedding of `Selection::collect_used_types`: a field node inserts the
field's declared type and recurses into its children; a spread node
follows the `Fragment` handle (`Fragment::get`, then
`Fragment::selection`, which upgrades the stored selections) and recurses
into the fragment's selections; an inline-fragment node inserts its
narrowing type and recurses. The source recursion has no cycle detection,
so the embedding is indexed by fuel: `none` means the fuel ran out before
the traversal completed. -/
def collect_used_types (schema : Schema) (query : ResolvedQuery) :
    Nat → SelectionView → Option (Finset TypeId)
  | 0, _ => none
  | Nat.succ fuel, SelectionView.field _ field_type children =>
    match collect_list (fun v => collect_used_types schema query fuel v) children with
    | none => none
    | some s => some (insert field_type s)
  | Nat.succ fuel, SelectionView.fragmentSpread fragment_id =>
    match query.fragments[fragment_id]? with
    | none => none
    | some frag =>
      match upgrade_list schema query frag.selection with
      | none => none
      | some views => collect_list (fun v => collect_used_types schema query fuel v) views
  | Nat.succ fuel, SelectionView.inlineFragment tid children =>
    match collect_list (fun v => collect_used_types schema query fuel v) children with
    | none => none
    | some s => some (insert tid s)

/-- Embedding of `Operation::all_used_types`: fetch the operation
(`Operation::get`, an `unwrap`), upgrade its stored selections
(`Operation::selection`) and run the collector over them with the given
fuel. -/
def all_used_types (schema : Schema) (query : ResolvedQuery)
    (operation_id : Nat) (fuel : Nat) : Option (Finset TypeId) :=
  match query.operations[operation_id]? with
  | none => none
  | some op =>
    match upgrade_list schema query op.selection with
    | none => none
    | some views => collect_list (fun v => collect_used_types schema query fuel v) views

/-- Whether a type kind admits a selection set in `resolve_selection`:
only objects and interfaces do. -/
def is_composite : TypeId → Bool
  | TypeId.object _ => true
  | TypeId.interface _ => true
  | _ => false

/-- The fragment a spread name denotes: the first fragment in the store's
sequence carrying that name (the source's `Iterator::position` scan in
`IdSelection::upgrade` resolves to the same entry). -/
def fragment_by_name (query : ResolvedQuery) (name : String) :
    Option ResolvedFragment :=
  query.fragments.find? (fun frag => frag.name == name)

mutual

/-- Specification-side round-trip relation, one node: the resolved node an
object-selection item must map to. A field item maps to a `Field` node
whose id is the looked-up field's and whose children match the item's own
selection set against the field's declared type; an inline fragment maps
to an `InlineFragment` node on the resolved condition type; a spread maps
to a `FragmentSpread` node with the same name. -/
inductive NodeMatches (schema : Schema) :
    StoredObject → QSelection → IdSelection → Prop where
  | field : ∀ (object : StoredObject) (name : String) (sub : List QSelection)
      (fid : Nat) (f : StoredField) (ch : List IdSelection),
      get_field_by_name schema object name = some (fid, f) →
      TreeMatches schema f.type_id sub ch →
      NodeMatches schema object (QSelection.field name sub) (IdSelection.field fid ch)
  | inline : ∀ (object : StoredObject) (tc : String) (sub : List QSelection)
      (tid : TypeId) (ch : List IdSelection),
      schema.find_type tc = some tid →
      TreeMatches schema tid sub ch →
      NodeMatches schema object (QSelection.inlineFragment (some tc) sub)
        (IdSelection.inlineFragment tid ch)
  | spread : ∀ (object : StoredObject) (n : String),
      NodeMatches schema object (QSelection.fragmentSpread n)
        (IdSelection.fragmentSpread n)

/-- Specification-side round-trip relation, one selection set against one
target type: on an object type the resolved list has exactly one node per
source item, in source order (no item added, dropped, reordered or
de-duplicated); on a non-composite type both are empty. -/
inductive TreeMatches (schema : Schema) : TypeId → List QSelection → List IdSelection → Prop where
  | leaf : ∀ t : TypeId, is_composite t = false → TreeMatches schema t [] []
  | obj_nil : ∀ oid : Nat, TreeMatches schema (TypeId.object oid) [] []
  | obj_cons : ∀ (oid : Nat) (object : StoredObject) (item : QSelection)
      (node : IdSelection) (rest : List QSelection) (nodes : List IdSelection),
      schema.objects[oid]? = some object →
      NodeMatches schema object item node →
      TreeMatches schema (TypeId.object oid) rest nodes →
      TreeMatches schema (TypeId.object oid) (item :: rest) (node :: nodes)

end

/-- Specification-side used-type relation: `UsedType schema query c t`
holds when `t` is the declared type of a field node or the narrowing type
of an inline-fragment node reachable by depth-first traversal from the
stored selection node `c`, following fragment spreads into the selections
of the fragment the spread's name denotes. -/
inductive UsedType (schema : Schema) (query : ResolvedQuery) :
    IdSelection → TypeId → Prop where
  | field_self : ∀ (fid : Nat) (ch : List IdSelection) (f : StoredField),
      schema.fields[fid]? = some f →
      UsedType schema query (IdSelection.field fid ch) f.type_id
  | field_child : ∀ (fid : Nat) (ch : List IdSelection) (c : IdSelection) (t : TypeId),
      c ∈ ch → UsedType schema query c t →
      UsedType schema query (IdSelection.field fid ch) t
  | inline_self : ∀ (tid : TypeId) (ch : List IdSelection),
      UsedType schema query (IdSelection.inlineFragment tid ch) tid
  | inline_child : ∀ (tid : TypeId) (ch : List IdSelection) (c : IdSelection) (t : TypeId),
      c ∈ ch → UsedType schema query c t →
      UsedType schema query (IdSelection.inlineFragment tid ch) t
  | spread : ∀ (name : String) (frag : ResolvedFragment) (c : IdSelection) (t : TypeId),
      fragment_by_name query name = some frag →
      c ∈ frag.selection → UsedType schema query c t →
      UsedType schema query (IdSelection.fragmentSpread name) t

/-- A stored selection node contains, anywhere in its nested children, a
fragment spread whose name resolves (first match by name) to fragment
index `j` of the store. -/
inductive ContainsSpreadIdx (query : ResolvedQuery) : IdSelection → Nat → Prop where
  | spread : ∀ (name : String) (j : Nat),
      query.fragments.findIdx? (fun frag => frag.name == name) = some j →
      ContainsSpreadIdx query (IdSelection.fragmentSpread name) j
  | field_child : ∀ (fid : Nat) (ch : List IdSelection) (c : IdSelection) (j : Nat),
      c ∈ ch → ContainsSpreadIdx query c j →
      ContainsSpreadIdx query (IdSelection.field fid ch) j
  | inline_child : ∀ (tid : TypeId) (ch : List IdSelection) (c : IdSelection) (j : Nat),
      c ∈ ch → ContainsSpreadIdx query c j →
      ContainsSpreadIdx query (IdSelection.inlineFragment tid ch) j

/-- One edge of the store's fragment-spread reference graph: the fragment
at index `i` has, somewhere in its stored selection tree, a spread
resolving to index `j`. -/
def StepSpread (query : ResolvedQuery) (i j : Nat) : Prop :=
  ∃ frag, query.fragments[i]? = some frag ∧
    ∃ c ∈ frag.selection, ContainsSpreadIdx query c j

/-- A small concrete schema, after the spec's scenarios: `type Query { me:
User }`, `type User { id: ID, name: String }`, plus one interface `Node`
declaring `id`. -/
def schemaA : Schema :=
  { fields := [ { name := "me", type_id := TypeId.object 1 },
                { name := "id", type_id := TypeId.scalar 0 },
                { name := "name", type_id := TypeId.scalar 1 } ]
    objects := [ { name := "Query", fields := [0] },
                 { name := "User", fields := [1, 2] } ]
    interfaces := [ { name := "Node", fields := [1] } ]
    types_by_name := [ ("Query", TypeId.object 0), ("User", TypeId.object 1),
                       ("Node", TypeId.interface 0),
                       ("ID", TypeId.scalar 0), ("String", TypeId.scalar 1) ]
    query_type := 0
    mutation_type := 0 }

/-- Scenario A document: `query Me { me { id name } }`. -/
def docMe : Document :=
  { definitions := [ Definition.operation (OperationDefinition.query
      { name := some "Me"
        variable_definitions := []
        selection_set := [ QSelection.field "me"
          [ QSelection.field "id" [], QSelection.field "name" [] ] ] }) ] }

/-- Scenario E document: `query Q { me { ...Missing } }` with no fragment
named `Missing` anywhere. -/
def docMissing : Document :=
  { definitions := [ Definition.operation (OperationDefinition.query
      { name := some "Q"
        variable_definitions := []
        selection_set := [ QSelection.field "me"
          [ QSelection.fragmentSpread "Missing" ] ] }) ] }

/-- The store `resolve` produces for `docMissing`: the dangling spread is
stored by name, with an empty fragment sequence. -/
def storeMissing : ResolvedQuery :=
  { operations := [ { name := "Q", operation_type := OperationType.query,
                      vars := [],
                      selection := [ IdSelection.field 0
                        [ IdSelection.fragmentSpread "Missing" ] ] } ]
    fragments := [] }

/-- A document whose single operation declares one variable:
`query V($x: Int = 3) { me { id } }`. -/
def docVar : Document :=
  { definitions := [ Definition.operation (OperationDefinition.query
      { name := some "V"
        variable_definitions := [ { name := "x",
                                    var_type := InputType.named "Int",
                                    default := some (QValue.intVal 3) } ]
        selection_set := [ QSelection.field "me" [ QSelection.field "id" [] ] ] }) ] }

/-- The store `resolve` produces for `docVar`: the declared variable is
discarded. -/
def storeVar : ResolvedQuery :=
  { operations := [ { name := "V", operation_type := OperationType.query,
                      vars := [],
                      selection := [ IdSelection.field 0
                        [ IdSelection.field 1 [] ] ] } ]
    fragments := [] }

/-- A document with two fragment definitions sharing the name `F`. -/
def docDup : Document :=
  { definitions := [
      Definition.fragment { name := "F", type_condition := "User",
                            selection_set := [ QSelection.field "name" [] ] },
      Definition.fragment { name := "F", type_condition := "User",
                            selection_set := [ QSelection.field "id" [] ] } ] }

/-- The store `resolve` produces for `docDup`: both same-named fragments
are appended, in document order. -/
def storeDup : ResolvedQuery :=
  { operations := []
    fragments := [ { name := "F", on_type := TypeId.object 1,
                     selection := [ IdSelection.field 2 [] ] },
                   { name := "F", on_type := TypeId.object 1,
                     selection := [ IdSelection.field 1 [] ] } ] }

/-- A document whose fragment's type condition names a type absent from
the schema: `fragment B on Unknown { id }`. -/
def docBadFrag : Document :=
  { definitions := [
      Definition.fragment { name := "B", type_condition := "Unknown",
                            selection_set := [ QSelection.field "id" [] ] } ] }

/-- Scenario D document: the spread fragment is defined after the
operation. `query Q { me { ...F } } fragment F on User { name }`. -/
def docSpread : Document :=
  { definitions := [
      Definition.operation (OperationDefinition.query
        { name := some "Q"
          variable_definitions := []
          selection_set := [ QSelection.field "me"
            [ QSelection.fragmentSpread "F" ] ] }),
      Definition.fragment { name := "F", type_condition := "User",
                            selection_set := [ QSelection.field "name" [] ] } ] }

/-- The store `resolve` produces for `docSpread`. -/
def storeSpread : ResolvedQuery :=
  { operations := [ { name := "Q", operation_type := OperationType.query,
                      vars := [],
                      selection := [ IdSelection.field 0
                        [ IdSelection.fragmentSpread "F" ] ] } ]
    fragments := [ { name := "F", on_type := TypeId.object 1,
                     selection := [ IdSelection.field 2 [] ] } ] }

/-- A document with a self-spreading fragment:
`fragment F on User { ...F } query C { ...F }`. -/
def docCyc : Document :=
  { definitions := [
      Definition.fragment { name := "F", type_condition := "User",
                            selection_set := [ QSelection.fragmentSpread "F" ] },
      Definition.operation (OperationDefinition.query
        { name := some "C"
          variable_definitions := []
          selection_set := [ QSelection.fragmentSpread "F" ] }) ] }

/-- The store `resolve` produces for `docCyc`: its fragment-spread graph
has the self-loop `0 → 0`. -/
def storeCyc : ResolvedQuery :=
  { operations := [ { name := "C", operation_type := OperationType.query,
                      vars := [],
                      selection := [ IdSelection.fragmentSpread "F" ] } ]
    fragments := [ { name := "F", on_type := TypeId.object 1,
                     selection := [ IdSelection.fragmentSpread "F" ] } ] }

/-- Evaluation of `resolve_selection` on any non-composite target type:
empty selection sets succeed with the empty tree, non-empty ones fail
with the selection-on-leaf error carrying the type. -/
def resolve_selection_non_composite_eq (schema : Schema) (t : TypeId)
    (ss : List QSelection) (h : is_composite t = false) :
    resolve_selection schema t ss =
      (if ss.isEmpty then Except.ok []
       else Except.error (Failure.err (ResolveError.selectionOnNonSelectable t))) := by
  cases t with
  | object oid => simp [is_composite] at h
  | interface iid => simp [is_composite] at h
  | union uid => rfl
  | enum eid => rfl
  | scalar sid => rfl
  | inputObject ioid => rfl

/-- A successful `resolve_selection` on a non-composite type forces both
sides to be empty, which is the `leaf` case of the round-trip relation. -/
def tree_matches_of_non_composite (schema : Schema) (t : TypeId)
    (ss : List QSelection) (out : List IdSelection)
    (h : is_composite t = false)
    (hres : resolve_selection schema t ss = Except.ok out) :
    TreeMatches schema t ss out := by
  rw [resolve_selection_non_composite_eq schema t ss h] at hres
  by_cases he : ss.isEmpty
  · rw [if_pos he] at hres
    cases hres
    have hss : ss = [] := List.isEmpty_iff.mp he
    subst hss
    exact TreeMatches.leaf t h
  · rw [if_neg he] at hres
    cases hres

/-- The field case of `resolve_selection_item`, stated in the source's
call structure: look the field up (error when absent), then resolve the
sub-selection through `resolve_selection` against the field's declared
type. Holds definitionally: the dispatch inlined into
`resolve_selection_item` for structural recursion is exactly the body of
`resolve_selection`. -/
def resolve_selection_item_field_eq (schema : Schema) (object : StoredObject)
    (name : String) (sub : List QSelection) :
    resolve_selection_item schema object (QSelection.field name sub) =
      match get_field_by_name schema object name with
      | none => Except.error (Failure.err (ResolveError.noFieldNamed name object.name))
      | some (fid, f) =>
        match resolve_selection schema f.type_id sub with
        | Except.error e => Except.error e
        | Except.ok children => Except.ok (IdSelection.field fid children) := rfl

/-- The inline-fragment case of `resolve_selection_item`, stated in the
source's call structure: it is exactly `resolve_inline_fragment`. Holds
definitionally, like `resolve_selection_item_field_eq`. -/
def resolve_selection_item_inline_eq (schema : Schema) (object : StoredObject)
    (tc : Option String) (sub : List QSelection) :
    resolve_selection_item schema object (QSelection.inlineFragment tc sub) =
      resolve_inline_fragment schema tc sub := rfl

mutual

/-- A successfully resolved selection item matches its source item in the
round-trip relation (proved by structural recursion mirroring
`resolve_selection_item`). -/
def node_ok_matches (schema : Schema) (object : StoredObject) :
    ∀ (item : QSelection) (node : IdSelection),
      resolve_selection_item schema object item = Except.ok node →
      NodeMatches schema object item node
  | QSelection.field name sub, node, h => by
    rw [resolve_selection_item_field_eq] at h
    cases hf : get_field_by_name schema object name with
    | none => simp only [hf] at h; cases h
    | some p =>
      obtain ⟨fid, f⟩ := p
      simp only [hf] at h
      cases hs : resolve_selection schema f.type_id sub with
      | error e => simp only [hs] at h; cases h
      | ok children =>
        simp only [hs] at h
        cases h
        refine NodeMatches.field object name sub fid f children hf ?_
        cases ht : f.type_id with
        | object oid =>
          rw [ht] at hs
          simp only [resolve_selection] at hs
          cases ho : schema.objects[oid]? with
          | none => simp only [ho] at hs; cases hs
          | some object2 =>
            simp only [ho] at hs
            exact list_ok_matches schema oid object2 ho sub children hs
        | interface iid =>
          rw [ht] at hs
          simp only [resolve_selection] at hs
          cases hi : schema.interfaces[iid]? with
          | none => simp only [hi] at hs; cases hs
          | some i => simp only [hi] at hs; cases hs
        | union uid =>
          rw [ht] at hs
          exact tree_matches_of_non_composite schema _ sub children rfl hs
        | enum eid =>
          rw [ht] at hs
          exact tree_matches_of_non_composite schema _ sub children rfl hs
        | scalar sid =>
          rw [ht] at hs
          exact tree_matches_of_non_composite schema _ sub children rfl hs
        | inputObject ioid =>
          rw [ht] at hs
          exact tree_matches_of_non_composite schema _ sub children rfl hs
  | QSelection.inlineFragment tc sub, node, h => by
    rw [resolve_selection_item_inline_eq] at h
    simp only [resolve_inline_fragment] at h
    cases tc with
    | none => cases h
    | some cond_name =>
      cases hft : schema.find_type cond_name with
      | none => simp only [hft] at h; cases h
      | some type_id =>
        simp only [hft] at h
        cases hs : resolve_selection schema type_id sub with
        | error e => simp only [hs] at h; cases h
        | ok children =>
          simp only [hs] at h
          cases h
          refine NodeMatches.inline object cond_name sub type_id children hft ?_
          cases type_id with
          | object oid =>
            simp only [resolve_selection] at hs
            cases ho : schema.objects[oid]? with
            | none => simp only [ho] at hs; cases hs
            | some object2 =>
              simp only [ho] at hs
              exact list_ok_matches schema oid object2 ho sub children hs
          | interface iid =>
            simp only [resolve_selection] at hs
            cases hi : schema.interfaces[iid]? with
            | none => simp only [hi] at hs; cases hs
            | some i => simp only [hi] at hs; cases hs
          | union uid => exact tree_matches_of_non_composite schema _ sub children rfl hs
          | enum eid => exact tree_matches_of_non_composite schema _ sub children rfl hs
          | scalar sid => exact tree_matches_of_non_composite schema _ sub children rfl hs
          | inputObject ioid => exact tree_matches_of_non_composite schema _ sub children rfl hs
  | QSelection.fragmentSpread n, node, h => by
    simp only [resolve_selection_item] at h
    cases h
    exact NodeMatches.spread object n

/-- A successfully resolved object selection set matches its source
selection set item by item, in order (proved by structural recursion
mirroring `resolve_object_selection`). -/
def list_ok_matches (schema : Schema) (oid : Nat)
    (object : StoredObject) (hobj : schema.objects[oid]? = some object) :
    ∀ (ss : List QSelection) (out : List IdSelection),
      resolve_object_selection schema object ss = Except.ok out →
      TreeMatches schema (TypeId.object oid) ss out
  | [], out, h => by
    simp only [resolve_object_selection] at h
    cases h
    exact TreeMatches.obj_nil oid
  | item :: rest, out, h => by
    simp only [resolve_object_selection] at h
    cases hi : resolve_selection_item schema object item with
    | error e => simp only [hi] at h; cases h
    | ok node =>
      simp only [hi] at h
      cases hr : resolve_object_selection schema object rest with
      | error e => simp only [hr] at h; cases h
      | ok nodes =>
        simp only [hr] at h
        cases h
        exact TreeMatches.obj_cons oid object item node rest nodes hobj
          (node_ok_matches schema object item node hi)
          (list_ok_matches schema oid object hobj rest nodes hr)

end

/-- C1, counterexample: the claim says a spread naming an absent fragment
makes `resolve` fail with an unknown-fragment error before the store is
handed out. In fact `resolve` succeeds on `docMissing` (whose only spread
names the nowhere-defined fragment `Missing`), the resulting store's
fragment sequence has no entry named `Missing`, and looking the spread up
during view construction (`IdSelection::upgrade`) hits the unchecked
`unwrap` — modelled as `none`. -/
theorem c1_spread_unvalidated_cex :
    resolve schemaA docMissing = Except.ok storeMissing ∧
    fragment_by_name storeMissing "Missing" = none ∧
    IdSelection.upgrade schemaA storeMissing (IdSelection.fragmentSpread "Missing") = none :=
  ⟨rfl, rfl, rfl⟩

/-- C1, amended: resolution performs no fragment-spread validation — a
spread item always resolves successfully to a `FragmentSpread` node
carrying only the name, whatever the store contains, and the lookup is
deferred to `IdSelection::upgrade`, which panics (modelled `none`) when no
fragment of that name exists in the store. -/
theorem c1_spread_resolution_unchecked (schema : Schema) (object : StoredObject)
    (q : ResolvedQuery) (name : String)
    (h : q.fragments.findIdx? (fun frag => frag.name == name) = none) :
    resolve_selection_item schema object (QSelection.fragmentSpread name) =
      Except.ok (IdSelection.fragmentSpread name) ∧
    IdSelection.upgrade schema q (IdSelection.fragmentSpread name) = none :=
  ⟨rfl, by simp [IdSelection.upgrade, h]⟩

/-- C1, witness for `c1_spread_resolution_unchecked` at the store of
`docMissing` and the spread name `Missing`. -/
theorem c1_spread_resolution_unchecked_witness :
    resolve_selection_item schemaA { name := "Query", fields := [0] }
        (QSelection.fragmentSpread "Missing") =
      Except.ok (IdSelection.fragmentSpread "Missing") ∧
    IdSelection.upgrade schemaA storeMissing (IdSelection.fragmentSpread "Missing") = none :=
  c1_spread_resolution_unchecked schemaA { name := "Query", fields := [0] }
    storeMissing "Missing" rfl

/-- C2, counterexample: the claim says selection sets targeting an
interface type are resolved (interface fields and narrowing constructs
supported). In fact selecting `id` — a field the interface `Node`
declares — on `Node` hits the `todo!("interface thing")` panic. -/
theorem c2_interface_unhandled_cex :
    resolve_selection schemaA (TypeId.interface 0) [QSelection.field "id" []] =
      Except.error (Failure.panicked "not yet implemented: interface thing") := rfl

/-- C2, amended: for every selection set whose target type is an interface
type present in the schema, `resolve_selection` does not return a
resolved tree: the interface case is left unhandled and panics with the
`todo!("interface thing")` placeholder. -/
theorem c2_interface_selection_panics (schema : Schema) (iid : Nat)
    (i : StoredObject) (ss : List QSelection)
    (h : schema.interfaces[iid]? = some i) :
    resolve_selection schema (TypeId.interface iid) ss =
      Except.error (Failure.panicked "not yet implemented: interface thing") := by
  simp [resolve_selection, h]

/-- C2, witness for `c2_interface_selection_panics` at `schemaA`'s
interface `Node`. -/
theorem c2_interface_selection_panics_witness :
    resolve_selection schemaA (TypeId.interface 0) [QSelection.fragmentSpread "F"] =
      Except.error (Failure.panicked "not yet implemented: interface thing") :=
  c2_interface_selection_panics schemaA 0 { name := "Node", fields := [1] }
    [QSelection.fragmentSpread "F"] rfl

/-- C3, counterexample: the claim says an anonymous operation is rejected
with a structured `AnonymousOperationUnsupported` resolution error rather
than an internal failure. In fact an unnamed query hits the
`expect("query without name")` panic — an internal failure, not a
result-typed error of the taxonomy. -/
theorem c3_anonymous_operation_cex :
    resolve_operation { operations := [], fragments := [] } schemaA
        (OperationDefinition.query { name := none, variable_definitions := [],
                                     selection_set := [] }) =
      Except.error (Failure.panicked "query without name") := rfl

/-- C3, amended: operations without a name make resolution panic (`expect`
for queries and mutations, `unreachable!` for bare selection-set
operations) instead of returning a structured error; for named queries
and mutations the stored resolved operation does record the name. -/
theorem c3_anonymous_panics_named_records (schema : Schema) (q : ResolvedQuery)
    (body : QueryBody) (ss : List QSelection) (root_q root_m : StoredObject)
    (hq : schema.objects[schema.query_type]? = some root_q)
    (hm : schema.objects[schema.mutation_type]? = some root_m) :
    (body.name = none →
      resolve_operation q schema (OperationDefinition.query body) =
        Except.error (Failure.panicked "query without name") ∧
      resolve_operation q schema (OperationDefinition.mutation body) =
        Except.error (Failure.panicked "mutation without name")) ∧
    (resolve_operation q schema (OperationDefinition.selectionSet ss) =
      Except.error (Failure.panicked "unnamed queries are not supported")) ∧
    (∀ (n : String) (q' : ResolvedQuery), body.name = some n →
      (resolve_operation q schema (OperationDefinition.query body) = Except.ok q' ∨
       resolve_operation q schema (OperationDefinition.mutation body) = Except.ok q') →
      ∃ op, q'.operations = q.operations ++ [op] ∧ op.name = n) := by
  refine ⟨fun hnone => ?_, rfl, fun n q' hsome hok => ?_⟩
  · constructor <;> simp [resolve_operation, hq, hm, hnone]
  · rcases hok with hok | hok <;>
    · revert hok
      simp only [resolve_operation, hq, hm, hsome]
      split
      · intro h; cases h
      · rename_i sel hsel
        intro h
        cases h
        exact ⟨_, rfl, rfl⟩

/-- C3, witness for `c3_anonymous_panics_named_records`: at `schemaA`, an
unnamed body panics in both query and mutation position, and a named body
round-trips its name into the stored operation. -/
theorem c3_anonymous_panics_named_records_witness :
    (resolve_operation { operations := [], fragments := [] } schemaA
        (OperationDefinition.query { name := none, variable_definitions := [],
                                     selection_set := [] }) =
      Except.error (Failure.panicked "query without name") ∧
     resolve_operation { operations := [], fragments := [] } schemaA
        (OperationDefinition.mutation { name := none, variable_definitions := [],
                                        selection_set := [] }) =
      Except.error (Failure.panicked "mutation without name")) ∧
    (∃ op, storeVar.operations = [] ++ [op] ∧ op.name = "V") :=
  ⟨(c3_anonymous_panics_named_records schemaA { operations := [], fragments := [] }
      { name := none, variable_definitions := [], selection_set := [] }
      [] _ _ rfl rfl).1 rfl,
   (c3_anonymous_panics_named_records schemaA { operations := [], fragments := [] }
      { name := some "V",
        variable_definitions := [ { name := "x", var_type := InputType.named "Int",
                                    default := some (QValue.intVal 3) } ],
        selection_set := [ QSelection.field "me" [ QSelection.field "id" [] ] ] }
      [] _ _ rfl rfl).2.2 "V" storeVar rfl (Or.inl rfl)⟩

/-- C4, counterexample: the claim says declared variables are recorded
verbatim in the stored resolved operation. In fact `docVar` declares the
variable `x : Int = 3`, yet the resolved operation's variable sequence is
empty (`resolve_operation` stores `Vec::new()`). -/
theorem c4_variables_dropped_cex :
    resolve schemaA docVar = Except.ok storeVar ∧
    docVar.definitions = [ Definition.operation (OperationDefinition.query
      { name := some "V"
        variable_definitions := [ { name := "x",
                                    var_type := InputType.named "Int",
                                    default := some (QValue.intVal 3) } ]
        selection_set := [ QSelection.field "me" [ QSelection.field "id" [] ] ] }) ] ∧
    storeVar.operations.map (fun op => op.vars) = [[]] :=
  ⟨rfl, rfl, rfl⟩

/-- C4, amended: `resolve_operation` discards declared variables — every
operation it stores carries an empty variables sequence, whatever the
operation definition declared. -/
theorem c4_resolved_variables_empty (q : ResolvedQuery) (schema : Schema)
    (operation : OperationDefinition) (q' : ResolvedQuery)
    (h : resolve_operation q schema operation = Except.ok q') :
    ∃ op, q'.operations = q.operations ++ [op] ∧ op.vars = [] := by
  cases operation <;> simp only [resolve_operation] at h <;> repeat' split at h
  all_goals cases h
  all_goals exact ⟨_, rfl, rfl⟩

/-- C4, witness for `c4_resolved_variables_empty` at `docVar`'s operation. -/
theorem c4_resolved_variables_empty_witness :
    ∃ op, storeVar.operations = [] ++ [op] ∧ op.vars = [] :=
  c4_resolved_variables_empty { operations := [], fragments := [] } schemaA
    (OperationDefinition.query
      { name := some "V"
        variable_definitions := [ { name := "x",
                                    var_type := InputType.named "Int",
                                    default := some (QValue.intVal 3) } ]
        selection_set := [ QSelection.field "me" [ QSelection.field "id" [] ] ] })
    storeVar rfl

/-- C5, counterexample: the claim says two fragment definitions sharing a
name fail resolution with a duplicate-fragment error and that fragment
names are unique in a resolved store. In fact `docDup` (two fragments
named `F`) resolves successfully and both entries sit in the store. -/
theorem c5_duplicate_fragments_accepted_cex :
    resolve schemaA docDup = Except.ok storeDup ∧
    storeDup.fragments.map (fun f => f.name) = ["F", "F"] :=
  ⟨rfl, rfl⟩

/-- C5, amended: `resolve_fragment` performs no name-uniqueness check — it
appends the resolved fragment to the store's fragment sequence
unconditionally, whatever names the sequence already contains, so
resolution of a document with duplicate fragment names succeeds and the
names are not unique in the store. -/
theorem c5_fragment_appended_unconditionally (q : ResolvedQuery) (schema : Schema)
    (fragment : FragmentDefinition) (t : TypeId) (sel : List IdSelection)
    (ht : schema.find_type fragment.type_condition = some t)
    (hs : resolve_selection schema t fragment.selection_set = Except.ok sel) :
    resolve_fragment q schema fragment =
      Except.ok { q with fragments := q.fragments ++
        [{ name := fragment.name, on_type := t, selection := sel }] } := by
  simp [resolve_fragment, ht, hs]

/-- C5, witness for `c5_fragment_appended_unconditionally`: appending the
second fragment named `F` to a store that already holds one named `F`
succeeds and yields `storeDup`. -/
theorem c5_fragment_appended_unconditionally_witness :
    resolve_fragment
        { operations := []
          fragments := [ { name := "F", on_type := TypeId.object 1,
                           selection := [ IdSelection.field 2 [] ] } ] }
        schemaA
        { name := "F", type_condition := "User",
          selection_set := [ QSelection.field "id" [] ] } =
      Except.ok storeDup :=
  c5_fragment_appended_unconditionally
    { operations := []
      fragments := [ { name := "F", on_type := TypeId.object 1,
                       selection := [ IdSelection.field 2 [] ] } ] }
    schemaA
    { name := "F", type_condition := "User",
      selection_set := [ QSelection.field "id" [] ] }
    (TypeId.object 1) [ IdSelection.field 1 [] ] rfl rfl

/-- C6, counterexample: the claim says an unknown type-condition name
yields a result-typed `UnknownType` error for fragment definitions and
inline fragments alike. In fact a fragment definition conditioned on the
absent type `Unknown` makes resolution panic (`expect("TODO: proper error
message")`), an internal failure rather than a returned error. -/
theorem c6_unknown_type_condition_cex :
    resolve schemaA docBadFrag =
      Except.error (Failure.panicked "TODO: proper error message") := rfl

/-- C6, amended: an unknown type-condition name aborts resolution, but the
two sites behave differently: a fragment definition panics via `expect`
(internal failure), while an inline fragment returns a result-typed error
— the placeholder `anyhow!("TODO: error message")`, which does not carry
the offending name. -/
theorem c6_unknown_type_condition_behavior (schema : Schema) (q : ResolvedQuery)
    (fragment : FragmentDefinition) (ss : List QSelection)
    (h : schema.find_type fragment.type_condition = none) :
    resolve_fragment q schema fragment =
      Except.error (Failure.panicked "TODO: proper error message") ∧
    resolve_inline_fragment schema (some fragment.type_condition) ss =
      Except.error (Failure.err ResolveError.todoErrorMessage) := by
  constructor <;> simp [resolve_fragment, resolve_inline_fragment, h]

/-- C6, witness for `c6_unknown_type_condition_behavior` at the absent
type name `Unknown`. -/
theorem c6_unknown_type_condition_behavior_witness :
    resolve_fragment { operations := [], fragments := [] } schemaA
        { name := "B", type_condition := "Unknown",
          selection_set := [ QSelection.field "id" [] ] } =
      Except.error (Failure.panicked "TODO: proper error message") ∧
    resolve_inline_fragment schemaA (some "Unknown") [ QSelection.field "id" [] ] =
      Except.error (Failure.err ResolveError.todoErrorMessage) :=
  c6_unknown_type_condition_behavior schemaA { operations := [], fragments := [] }
    { name := "B", type_condition := "Unknown",
      selection_set := [ QSelection.field "id" [] ] }
    [ QSelection.field "id" [] ] rfl

/-- C7: on any non-composite target type (scalar, enum, union,
input-object — any kind other than object and interface),
`resolve_selection` fails with the selection-on-leaf error carrying the
offending type exactly when the selection set is non-empty, returns the
empty tree when it is empty, and consequently every successfully resolved
tree attached to such a type is empty. -/
theorem c7_leaf_selection (schema : Schema) (t : TypeId) (ss : List QSelection)
    (h : is_composite t = false) :
    (ss ≠ [] → resolve_selection schema t ss =
      Except.error (Failure.err (ResolveError.selectionOnNonSelectable t))) ∧
    (ss = [] → resolve_selection schema t ss = Except.ok []) ∧
    (∀ out, resolve_selection schema t ss = Except.ok out → out = []) := by
  have hsel : resolve_selection schema t ss =
      (if ss.isEmpty then Except.ok []
       else Except.error (Failure.err (ResolveError.selectionOnNonSelectable t))) := by
    cases t with
    | object oid => simp [is_composite] at h
    | interface iid => simp [is_composite] at h
    | union uid => rfl
    | enum eid => rfl
    | scalar sid => rfl
    | inputObject ioid => rfl
  refine ⟨fun hne => ?_, fun he => ?_, fun out hout => ?_⟩
  · rw [hsel, if_neg (by simpa [List.isEmpty_iff] using hne)]
  · subst he; rw [hsel]; rfl
  · rw [hsel] at hout
    by_cases he : ss.isEmpty
    · rw [if_pos he] at hout; cases hout; rfl
    · rw [if_neg he] at hout; cases hout

/-- C7, witness for `c7_leaf_selection` at the scalar type `ID`, once with
a non-empty and once with an empty selection set. -/
theorem c7_leaf_selection_witness :
    resolve_selection schemaA (TypeId.scalar 0) [ QSelection.field "x" [] ] =
      Except.error (Failure.err (ResolveError.selectionOnNonSelectable (TypeId.scalar 0))) ∧
    resolve_selection schemaA (TypeId.scalar 0) [] = Except.ok [] :=
  ⟨(c7_leaf_selection schemaA (TypeId.scalar 0) [ QSelection.field "x" [] ] rfl).1
      (by simp),
   (c7_leaf_selection schemaA (TypeId.scalar 0) [] rfl).2.1 rfl⟩

/-- C8: resolving a selection set against an object type, a field item
whose name is not declared on the object fails with the unknown-field
error carrying the field name and the target type's name; and every
successful resolution satisfies the round-trip relation: exactly one
resolved node per source item, in source order, with no item added,
dropped, reordered or de-duplicated, children matching recursively. -/
theorem c8_object_selection_roundtrip (schema : Schema) :
    (∀ (object : StoredObject) (name : String) (sub : List QSelection),
      get_field_by_name schema object name = none →
      resolve_selection_item schema object (QSelection.field name sub) =
        Except.error (Failure.err (ResolveError.noFieldNamed name object.name))) ∧
    (∀ (t : TypeId) (ss : List QSelection) (out : List IdSelection),
      resolve_selection schema t ss = Except.ok out →
      TreeMatches schema t ss out) := by
  constructor
  · intro object name sub hf
    rw [resolve_selection_item_field_eq, hf]
  · intro t ss out h
    cases t with
    | object oid =>
      simp only [resolve_selection] at h
      cases ho : schema.objects[oid]? with
      | none => simp only [ho] at h; cases h
      | some object =>
        simp only [ho] at h
        exact list_ok_matches schema oid object ho ss out h
    | interface iid =>
      simp only [resolve_selection] at h
      cases hi : schema.interfaces[iid]? with
      | none => simp only [hi] at h; cases h
      | some i => simp only [hi] at h; cases h
    | union uid => exact tree_matches_of_non_composite schema _ ss out rfl h
    | enum eid => exact tree_matches_of_non_composite schema _ ss out rfl h
    | scalar sid => exact tree_matches_of_non_composite schema _ ss out rfl h
    | inputObject ioid => exact tree_matches_of_non_composite schema _ ss out rfl h

/-- C8, witness for `c8_object_selection_roundtrip`: the unknown field
`email` on `User` errors (scenario B), and the resolved tree of scenario
A's selection set matches its source one-to-one. -/
theorem c8_object_selection_roundtrip_witness :
    resolve_selection_item schemaA { name := "User", fields := [1, 2] }
        (QSelection.field "email" []) =
      Except.error (Failure.err (ResolveError.noFieldNamed "email" "User")) ∧
    TreeMatches schemaA (TypeId.object 0)
      [ QSelection.field "me" [ QSelection.field "id" [], QSelection.field "name" [] ] ]
      [ IdSelection.field 0 [ IdSelection.field 1 [], IdSelection.field 2 [] ] ] :=
  ⟨(c8_object_selection_roundtrip schemaA).1 { name := "User", fields := [1, 2] }
      "email" [] rfl,
   (c8_object_selection_roundtrip schemaA).2 (TypeId.object 0)
      [ QSelection.field "me" [ QSelection.field "id" [], QSelection.field "name" [] ] ]
      [ IdSelection.field 0 [ IdSelection.field 1 [], IdSelection.field 2 [] ] ] rfl⟩

/-- A successful index search pairs with indexing and with `find?`: the
element at the found index is the first satisfying element. -/
theorem findIdx?_get_find? {α : Type} (p : α → Bool) :
    ∀ (l : List α) (i : Nat), l.findIdx? p = some i →
      ∃ x, l[i]? = some x ∧ l.find? p = some x := by
  intro l
  induction l with
  | nil => intro i h; simp at h
  | cons a as ih =>
    intro i h
    rw [List.findIdx?_cons] at h
    by_cases hp : p a
    · rw [if_pos hp] at h
      cases h
      exact ⟨a, List.getElem?_cons_zero, List.find?_cons_of_pos as hp⟩
    · rw [if_neg hp, List.findIdx?_succ] at h
      cases hfi : as.findIdx? p with
      | none => rw [hfi] at h; cases h
      | some j =>
        rw [hfi] at h
        injection h with h
        subst h
        rcases ih j hfi with ⟨x, hx1, hx2⟩
        refine ⟨x, by simpa using hx1, ?_⟩
        rw [List.find?_cons_of_neg as hp]
        exact hx2

/-- A successful `upgrade_list` relates members of the two lists in both
directions through `IdSelection.upgrade`. -/
theorem upgrade_list_mem (schema : Schema) (query : ResolvedQuery) :
    ∀ (cs : List IdSelection) (vs : List SelectionView),
      upgrade_list schema query cs = some vs →
      (∀ v ∈ vs, ∃ c ∈ cs, IdSelection.upgrade schema query c = some v) ∧
      (∀ c ∈ cs, ∃ v ∈ vs, IdSelection.upgrade schema query c = some v) := by
  intro cs
  induction cs with
  | nil =>
    intro vs h
    simp only [upgrade_list] at h
    cases h
    exact ⟨fun v hv => absurd hv (List.not_mem_nil v), fun c hc => absurd hc (List.not_mem_nil c)⟩
  | cons c cs ih =>
    intro vs h
    simp only [upgrade_list] at h
    cases hu : IdSelection.upgrade schema query c with
    | none => simp only [hu] at h; cases h
    | some v =>
      simp only [hu] at h
      cases hrest : upgrade_list schema query cs with
      | none => simp only [hrest] at h; cases h
      | some vs2 =>
        simp only [hrest] at h
        cases h
        rcases ih vs2 hrest with ⟨h1, h2⟩
        constructor
        · intro v' hv'
          rcases List.mem_cons.mp hv' with hh | hh
          · exact ⟨c, List.mem_cons_self c cs, by rw [hh]; exact hu⟩
          · rcases h1 v' hh with ⟨c', hc', hup⟩
            exact ⟨c', List.mem_cons_of_mem c hc', hup⟩
        · intro c' hc'
          rcases List.mem_cons.mp hc' with hh | hh
          · subst hh; exact ⟨v, List.mem_cons_self v vs2, hu⟩
          · rcases h2 c' hh with ⟨v', hv', hup⟩
            exact ⟨v', List.mem_cons_of_mem v hv', hup⟩

/-- A successful `collect_list` means every sibling succeeded, and the
union it returns contains exactly the types of the siblings' sets. -/
theorem collect_list_some (f : SelectionView → Option (Finset TypeId)) :
    ∀ (vs : List SelectionView) (s : Finset TypeId),
      collect_list f vs = some s →
      (∀ v ∈ vs, ∃ sv, f v = some sv) ∧
      (∀ t : TypeId, t ∈ s ↔ ∃ v ∈ vs, ∃ sv, f v = some sv ∧ t ∈ sv) := by
  intro vs
  induction vs with
  | nil =>
    intro s h
    simp only [collect_list] at h
    cases h
    constructor
    · intro v hv; cases hv
    · intro t
      simp
  | cons v vs ih =>
    intro s h
    simp only [collect_list] at h
    cases hf : f v with
    | none => simp only [hf] at h; cases h
    | some s1 =>
      simp only [hf] at h
      cases hrest : collect_list f vs with
      | none => simp only [hrest] at h; cases h
      | some s2 =>
        simp only [hrest] at h
        cases h
        rcases ih s2 hrest with ⟨h1, h2⟩
        constructor
        · intro v' hv'
          rcases List.mem_cons.mp hv' with hh | hh
          · subst hh; exact ⟨s1, hf⟩
          · exact h1 v' hh
        · intro t
          simp only [Finset.mem_union]
          constructor
          · rintro (ht | ht)
            · exact ⟨v, List.mem_cons_self v vs, s1, hf, ht⟩
            · rcases (h2 t).mp ht with ⟨v', hv', sv, hfv, htv⟩
              exact ⟨v', List.mem_cons_of_mem v hv', sv, hfv, htv⟩
          · rintro ⟨v', hv', sv, hfv, htv⟩
            rcases List.mem_cons.mp hv' with hh | hh
            · subst hh
              rw [hf] at hfv
              cases hfv
              exact Or.inl htv
            · exact Or.inr ((h2 t).mpr ⟨v', hh, sv, hfv, htv⟩)

/-- A failing sibling makes the whole `collect_list` fail. -/
theorem collect_list_none (f : SelectionView → Option (Finset TypeId)) :
    ∀ (vs : List SelectionView) (v : SelectionView), v ∈ vs → f v = none →
      collect_list f vs = none := by
  intro vs
  induction vs with
  | nil => intro v hv; cases hv
  | cons w ws ih =>
    intro v hv hfv
    simp only [collect_list]
    rcases List.mem_cons.mp hv with hh | hh
    · subst hh
      simp only [hfv]
    · cases hf : f w with
      | none => rfl
      | some s1 => simp only [ih v hh hfv]

/-- A completed collection over an upgraded stored selection returns
exactly the types the `UsedType` relation reaches from that selection. -/
theorem collect_upgrade_spec (schema : Schema) (query : ResolvedQuery) :
    ∀ (fuel : Nat) (c : IdSelection) (v : SelectionView) (s : Finset TypeId),
      IdSelection.upgrade schema query c = some v →
      collect_used_types schema query fuel v = some s →
      ∀ t : TypeId, t ∈ s ↔ UsedType schema query c t := by
  intro fuel
  induction fuel with
  | zero =>
    intro c v s hu hc
    simp only [collect_used_types] at hc
    cases hc
  | succ fuel IH =>
    intro c v s hu hc t
    cases c with
    | field fid ch =>
      simp only [IdSelection.upgrade] at hu
      cases hfld : schema.fields[fid]? with
      | none => simp only [hfld] at hu; cases hu
      | some f =>
        simp only [hfld] at hu
        cases hul : upgrade_list schema query ch with
        | none => simp only [hul] at hu; cases hu
        | some cs' =>
          simp only [hul] at hu
          cases hu
          simp only [collect_used_types] at hc
          cases hcl : collect_list (fun v => collect_used_types schema query fuel v) cs' with
          | none => simp only [hcl] at hc; cases hc
          | some s0 =>
            simp only [hcl] at hc
            cases hc
            rcases collect_list_some _ cs' s0 hcl with ⟨hall, hmem⟩
            rcases upgrade_list_mem schema query ch cs' hul with ⟨hback, hfwd⟩
            simp only [Finset.mem_insert]
            constructor
            · rintro (hteq | hts)
              · subst hteq
                exact UsedType.field_self fid ch f hfld
              · rcases (hmem t).mp hts with ⟨v', hv', sv, hcv, htv⟩
                rcases hback v' hv' with ⟨c', hc', hup⟩
                exact UsedType.field_child fid ch c' t hc'
                  ((IH c' v' sv hup hcv t).mp htv)
            · intro hut
              cases hut with
              | field_self _ _ f' hf' =>
                rw [hfld] at hf'
                cases hf'
                exact Or.inl rfl
              | field_child _ _ c' _ hc' hut' =>
                rcases hfwd c' hc' with ⟨v', hv', hup⟩
                rcases hall v' hv' with ⟨sv, hcv⟩
                exact Or.inr ((hmem t).mpr
                  ⟨v', hv', sv, hcv, (IH c' v' sv hup hcv t).mpr hut'⟩)
    | fragmentSpread name =>
      simp only [IdSelection.upgrade] at hu
      cases hidx : query.fragments.findIdx? (fun frag => frag.name == name) with
      | none => simp only [hidx] at hu; cases hu
      | some i =>
        simp only [hidx] at hu
        cases hu
        simp only [collect_used_types] at hc
        rcases findIdx?_get_find? _ query.fragments i hidx with ⟨frag, hget, hfind⟩
        rw [hget] at hc
        cases hul : upgrade_list schema query frag.selection with
        | none => simp only [hul] at hc; cases hc
        | some views =>
          simp only [hul] at hc
          rcases collect_list_some _ views s hc with ⟨hall, hmem⟩
          rcases upgrade_list_mem schema query frag.selection views hul with ⟨hback, hfwd⟩
          constructor
          · intro hts
            rcases (hmem t).mp hts with ⟨v', hv', sv, hcv, htv⟩
            rcases hback v' hv' with ⟨c', hc', hup⟩
            exact UsedType.spread name frag c' t hfind hc'
              ((IH c' v' sv hup hcv t).mp htv)
          · intro hut
            cases hut with
            | spread _ frag' c' _ hfind' hc' hut' =>
              rw [show fragment_by_name query name = some frag from hfind] at hfind'
              cases hfind'
              rcases hfwd c' hc' with ⟨v', hv', hup⟩
              rcases hall v' hv' with ⟨sv, hcv⟩
              exact (hmem t).mpr ⟨v', hv', sv, hcv, (IH c' v' sv hup hcv t).mpr hut'⟩
    | inlineFragment tid ch =>
      simp only [IdSelection.upgrade] at hu
      cases hul : upgrade_list schema query ch with
      | none => simp only [hul] at hu; cases hu
      | some cs' =>
        simp only [hul] at hu
        cases hu
        simp only [collect_used_types] at hc
        cases hcl : collect_list (fun v => collect_used_types schema query fuel v) cs' with
        | none => simp only [hcl] at hc; cases hc
        | some s0 =>
          simp only [hcl] at hc
          cases hc
          rcases collect_list_some _ cs' s0 hcl with ⟨hall, hmem⟩
          rcases upgrade_list_mem schema query ch cs' hul with ⟨hback, hfwd⟩
          simp only [Finset.mem_insert]
          constructor
          · rintro (hteq | hts)
            · rw [hteq]
              exact UsedType.inline_self tid ch
            · rcases (hmem t).mp hts with ⟨v', hv', sv, hcv, htv⟩
              rcases hback v' hv' with ⟨c', hc', hup⟩
              exact UsedType.inline_child tid ch c' t hc'
                ((IH c' v' sv hup hcv t).mp htv)
          · intro hut
            cases hut with
            | inline_self => exact Or.inl rfl
            | inline_child _ _ c' _ hc' hut' =>
              rcases hfwd c' hc' with ⟨v', hv', hup⟩
              rcases hall v' hv' with ⟨sv, hcv⟩
              exact Or.inr ((hmem t).mpr
                ⟨v', hv', sv, hcv, (IH c' v' sv hup hcv t).mpr hut'⟩)

/-- C9: whenever `Operation::all_used_types` completes on a stored
operation (all spreads resolvable, enough fuel), the set it returns holds
exactly the `TypeId`s the specification's depth-first used-type relation
reaches from the operation's stored selections — the declared type of
every reachable field node and the narrowing type of every reachable
inline-fragment node, following spreads into the named fragment's
selections, deduplicated (a `Finset`, so no ordering either). -/
theorem c9_all_used_types_exact (schema : Schema) (query : ResolvedQuery)
    (operation_id fuel : Nat) (s : Finset TypeId) (op : ResolvedOperation)
    (hop : query.operations[operation_id]? = some op)
    (h : all_used_types schema query operation_id fuel = some s) :
    ∀ t : TypeId, t ∈ s ↔ ∃ c ∈ op.selection, UsedType schema query c t := by
  simp only [all_used_types, hop] at h
  cases hul : upgrade_list schema query op.selection with
  | none => simp only [hul] at h; cases h
  | some views =>
    simp only [hul] at h
    intro t
    rcases collect_list_some _ views s h with ⟨hall, hmem⟩
    rcases upgrade_list_mem schema query op.selection views hul with ⟨hback, hfwd⟩
    constructor
    · intro hts
      rcases (hmem t).mp hts with ⟨v, hv, sv, hcv, htv⟩
      rcases hback v hv with ⟨c, hc, hup⟩
      exact ⟨c, hc, (collect_upgrade_spec schema query fuel c v sv hup hcv t).mp htv⟩
    · rintro ⟨c, hc, hut⟩
      rcases hfwd c hc with ⟨v, hv, hup⟩
      rcases hall v hv with ⟨sv, hcv⟩
      exact (hmem t).mpr
        ⟨v, hv, sv, hcv, (collect_upgrade_spec schema query fuel c v sv hup hcv t).mpr hut⟩

/-- C9, witness for `c9_all_used_types_exact` at the store of `docSpread`
(operation `Q`, fuel 9, collected set `{User, String}`), instantiated at
the type `String` reached through the spread `...F`. -/
theorem c9_all_used_types_exact_witness :
    TypeId.scalar 1 ∈ ({TypeId.object 1, TypeId.scalar 1} : Finset TypeId) ↔
      ∃ c ∈ [ IdSelection.field 0 [ IdSelection.fragmentSpread "F" ] ],
        UsedType schemaA storeSpread c (TypeId.scalar 1) :=
  c9_all_used_types_exact schemaA storeSpread 0 9
    {TypeId.object 1, TypeId.scalar 1}
    { name := "Q", operation_type := OperationType.query, vars := [],
      selection := [ IdSelection.field 0 [ IdSelection.fragmentSpread "F" ] ] }
    rfl (by decide) (TypeId.scalar 1)

/-- If a stored selection contains (at any nesting depth) a spread
resolving to fragment index `j`, then a completed collection over its
upgraded view forces the collection of that spread view to complete as
well, within the same fuel budget. -/
theorem contains_spread_success (schema : Schema) (query : ResolvedQuery) :
    ∀ (c : IdSelection) (j : Nat), ContainsSpreadIdx query c j →
      ∀ (v : SelectionView) (fuel : Nat) (s : Finset TypeId),
        IdSelection.upgrade schema query c = some v →
        collect_used_types schema query fuel v = some s →
        ∃ fuel' ≤ fuel, ∃ s', collect_used_types schema query fuel'
            (SelectionView.fragmentSpread j) = some s' := by
  intro c j hcont
  induction hcont with
  | spread name j hidx =>
    intro v fuel s hu hc
    simp only [IdSelection.upgrade, hidx] at hu
    cases hu
    exact ⟨fuel, Nat.le_refl fuel, s, hc⟩
  | field_child fid ch c j hcmem hcont ih =>
    intro v fuel s hu hc
    simp only [IdSelection.upgrade] at hu
    cases hfld : schema.fields[fid]? with
    | none => simp only [hfld] at hu; cases hu
    | some f =>
      simp only [hfld] at hu
      cases hul : upgrade_list schema query ch with
      | none => simp only [hul] at hu; cases hu
      | some cs' =>
        simp only [hul] at hu
        cases hu
        cases fuel with
        | zero => simp only [collect_used_types] at hc; cases hc
        | succ fuel0 =>
          simp only [collect_used_types] at hc
          cases hcl : collect_list (fun v => collect_used_types schema query fuel0 v) cs' with
          | none => simp only [hcl] at hc; cases hc
          | some s0 =>
            rcases (upgrade_list_mem schema query ch cs' hul).2 c hcmem with ⟨v', hv', hup⟩
            rcases (collect_list_some _ cs' s0 hcl).1 v' hv' with ⟨sv, hcv⟩
            rcases ih v' fuel0 sv hup hcv with ⟨fuel', hle, s', hcoll⟩
            exact ⟨fuel', Nat.le_trans hle (Nat.le_succ fuel0), s', hcoll⟩
  | inline_child tid ch c j hcmem hcont ih =>
    intro v fuel s hu hc
    simp only [IdSelection.upgrade] at hu
    cases hul : upgrade_list schema query ch with
    | none => simp only [hul] at hu; cases hu
    | some cs' =>
      simp only [hul] at hu
      cases hu
      cases fuel with
      | zero => simp only [collect_used_types] at hc; cases hc
      | succ fuel0 =>
        simp only [collect_used_types] at hc
        cases hcl : collect_list (fun v => collect_used_types schema query fuel0 v) cs' with
        | none => simp only [hcl] at hc; cases hc
        | some s0 =>
          rcases (upgrade_list_mem schema query ch cs' hul).2 c hcmem with ⟨v', hv', hup⟩
          rcases (collect_list_some _ cs' s0 hcl).1 v' hv' with ⟨sv, hcv⟩
          rcases ih v' fuel0 sv hup hcv with ⟨fuel', hle, s', hcoll⟩
          exact ⟨fuel', Nat.le_trans hle (Nat.le_succ fuel0), s', hcoll⟩

/-- One edge of the spread graph forces progress: a completed collection
of the spread view at `i` forces a completed collection of the spread
view at `j` with strictly less fuel. -/
theorem step_spread_success (schema : Schema) (query : ResolvedQuery)
    (i j : Nat) (hstep : StepSpread query i j) :
    ∀ (fuel : Nat) (s : Finset TypeId),
      collect_used_types schema query fuel (SelectionView.fragmentSpread i) = some s →
      ∃ fuel' < fuel, ∃ s', collect_used_types schema query fuel'
          (SelectionView.fragmentSpread j) = some s' := by
  rcases hstep with ⟨frag, hget, c, hcmem, hcont⟩
  intro fuel s hc
  cases fuel with
  | zero => simp only [collect_used_types] at hc; cases hc
  | succ fuel0 =>
    simp only [collect_used_types, hget] at hc
    cases hul : upgrade_list schema query frag.selection with
    | none => simp only [hul] at hc; cases hc
    | some views =>
      simp only [hul] at hc
      rcases (upgrade_list_mem schema query frag.selection views hul).2 c hcmem with ⟨v, hv, hup⟩
      rcases (collect_list_some _ views s hc).1 v hv with ⟨sv, hcv⟩
      rcases contains_spread_success schema query c j hcont v fuel0 sv hup hcv with
        ⟨fuel', hle, s', h⟩
      exact ⟨fuel', Nat.lt_succ_of_le hle, s', h⟩

/-- C10: the collector has no cycle detection — whenever the store's
fragment-spread reference graph has a cycle through fragment index `i`
(the fragment's selection tree reaches a spread of itself, directly or
transitively), collecting the used types of that spread view fails to
complete for every fuel bound, i.e. the source recursion is unbounded;
termination thus requires the spread graph to be acyclic. -/
theorem c10_cyclic_spread_nontermination (schema : Schema) (query : ResolvedQuery)
    (i : Nat) (hcyc : Relation.TransGen (StepSpread query) i i) :
    ∀ fuel : Nat,
      collect_used_types schema query fuel (SelectionView.fragmentSpread i) = none := by
  have main : ∀ (fuel k : Nat), Relation.TransGen (StepSpread query) k k →
      collect_used_types schema query fuel (SelectionView.fragmentSpread k) = none := by
    intro fuel
    induction fuel using Nat.strong_induction_on with
    | _ fuel IH =>
      intro k hk
      cases hc : collect_used_types schema query fuel (SelectionView.fragmentSpread k) with
      | none => rfl
      | some s =>
        exfalso
        rcases Relation.TransGen.head'_iff.mp hk with ⟨j, hij, hji⟩
        rcases step_spread_success schema query k j hij fuel s hc with ⟨fuel', hlt, s', hc'⟩
        have hk' : Relation.TransGen (StepSpread query) j j :=
          Relation.TransGen.tail' hji hij
        have hnone := IH fuel' hlt j hk'
        rw [hnone] at hc'
        cases hc'
  exact fun fuel => main fuel i hcyc

/-- C10, witness for `c10_cyclic_spread_nontermination`: `resolve` itself
builds the cyclic store of `docCyc` (fragment `F` spreads itself), whose
spread graph has the self-loop `0 → 0`, and collection at fuel 7 indeed
fails to complete. -/
theorem c10_cyclic_spread_nontermination_witness :
    resolve schemaA docCyc = Except.ok storeCyc ∧
    collect_used_types schemaA storeCyc 7 (SelectionView.fragmentSpread 0) = none :=
  ⟨rfl,
   c10_cyclic_spread_nontermination schemaA storeCyc 0
     (Relation.TransGen.single
       ⟨{ name := "F", on_type := TypeId.object 1,
          selection := [ IdSelection.fragmentSpread "F" ] }, rfl,
        IdSelection.fragmentSpread "F", by simp,
        ContainsSpreadIdx.spread "F" 0 rfl⟩) 7⟩

end GraphQLResolution
